import Mathlib

/-!
Verification model of the apollo-server middleware dispatch core
(src/lib/RequestHandler.js), the transport adapter's header conversion
(Server.handleRequest), and the builder's startup check (ServerBuilder.build).

JavaScript arrays are heap objects shared by reference, and the dispatcher
mutates a per-call copy of the middleware array with `shift()`.  We model the
heap explicitly (`Store`): the `RequestHandler` object holds a reference to its
middleware array, `handle` allocates a fresh copy of it (`slice()`), and
`handleRequest` consumes that copy head by head.  Pure and traced variants of
the dispatch are proved equivalent to the heap version and carry the
invocation-order information.

A middleware unit's `process(request, next)` is arbitrary code that calls
`next` at most once (the spec leaves more than one call undefined).  We model
the observable behaviour of one unit as a function from the request to an
action: respond directly, throw, or forward a (possibly modified) request to
`next` and post-process the response (the continuation may itself throw).
Errors are modelled by their message strings, matching the source which throws
plain `Error` objects.
-/

namespace ApolloServer

/-- Observable behaviour of one middleware `process(request, next)` call:
return a response without calling `next`, throw an error, or call `next`
exactly once with a (possibly modified) request and then continue with the
response (the continuation may also throw). -/
inductive MwAction (Req Resp : Type) where
  | respond (resp : Resp)
  | throwErr (msg : String)
  | forward (req : Req) (after : Resp → Except String Resp)

/-- A middleware unit: its `process` method, abstracted as a function from the
incoming request to the unit's observable action. -/
structure Middleware (Req Resp : Type) where
  process : Req → MwAction Req Resp

/-- Resuming a middleware's continuation on the result of `await next(...)`:
a rejected promise propagates without running the continuation. -/
def applyAfter {Resp : Type} (after : Resp → Except String Resp) :
    Except String Resp → Except String Resp
  | .ok resp => after resp
  | .error msg => .error msg

/-- The message of the error thrown by the dispatcher on an empty queue
(RequestHandler.js line 79). -/
def noMiddlewareMessage : String := "No middleware available to process request"

/-- A heap of middleware arrays: JavaScript arrays are shared by reference and
mutable, so the store maps references (allocation order) to array contents. -/
structure Store (Req Resp : Type) where
  next : Nat
  mem : Nat → List (Middleware Req Resp)

/-- Read the array at a reference. -/
def Store.get {Req Resp : Type} (σ : Store Req Resp) (r : Nat) :
    List (Middleware Req Resp) :=
  σ.mem r

/-- Overwrite the array at a reference (in-place array mutation). -/
def Store.set {Req Resp : Type} (σ : Store Req Resp) (r : Nat)
    (q : List (Middleware Req Resp)) : Store Req Resp :=
  ⟨σ.next, Function.update σ.mem r q⟩

/-- Allocate a fresh array (e.g. an array literal or `slice()` copy) and
return its reference. -/
def Store.alloc {Req Resp : Type} (σ : Store Req Resp)
    (q : List (Middleware Req Resp)) : Nat × Store Req Resp :=
  (σ.next, ⟨σ.next + 1, Function.update σ.mem σ.next q⟩)

@[simp]
theorem Store.get_set_same {Req Resp : Type} (σ : Store Req Resp) (r : Nat)
    (q : List (Middleware Req Resp)) : (σ.set r q).get r = q := by
  simp [Store.get, Store.set]

theorem Store.get_set_ne {Req Resp : Type} (σ : Store Req Resp) (r r' : Nat)
    (q : List (Middleware Req Resp)) (h : r' ≠ r) :
    (σ.set r q).get r' = σ.get r' := by
  simp [Store.get, Store.set, Function.update_noteq h]

@[simp]
theorem Store.next_set {Req Resp : Type} (σ : Store Req Resp) (r : Nat)
    (q : List (Middleware Req Resp)) : (σ.set r q).next = σ.next := by
  simp [Store.set]

theorem Store.get_alloc_fresh {Req Resp : Type} (σ : Store Req Resp)
    (q : List (Middleware Req Resp)) :
    (σ.alloc q).2.get (σ.alloc q).1 = q := by
  simp [Store.get, Store.alloc]

theorem Store.get_alloc_ne {Req Resp : Type} (σ : Store Req Resp)
    (q : List (Middleware Req Resp)) (r : Nat) (h : r ≠ σ.next) :
    (σ.alloc q).2.get r = σ.get r := by
  simp [Store.get, Store.alloc, Function.update_noteq h]

theorem Store.set_set_same {Req Resp : Type} (σ : Store Req Resp) (r : Nat)
    (q q' : List (Middleware Req Resp)) : (σ.set r q).set r q' = σ.set r q' := by
  simp [Store.set, Function.update_idem]

theorem Store.set_get_same {Req Resp : Type} (σ : Store Req Resp) (r : Nat) :
    σ.set r (σ.get r) = σ := by
  simp [Store.set, Store.get, Function.update_eq_self]

/-- The `RequestHandler` object: it owns a reference to its private
`middleware` array (`this.middleware`). -/
structure RequestHandler where
  middlewareRef : Nat

/-- The constructor: `this.middleware = []` allocates a fresh empty array. -/
def RequestHandler.new {Req Resp : Type} (σ : Store Req Resp) :
    RequestHandler × Store Req Resp :=
  let (r, σ') := σ.alloc []
  (⟨r⟩, σ')

/-- The method `addMiddleware(middleware)`: `this.middleware.push(middleware)` appends in
place to the stored array and returns `this` for chaining. -/
def RequestHandler.addMiddleware {Req Resp : Type} (σ : Store Req Resp)
    (h : RequestHandler) (m : Middleware Req Resp) :
    RequestHandler × Store Req Resp :=
  (h, σ.set h.middlewareRef (σ.get h.middlewareRef ++ [m]))

/-- The method `handleRequest(request, middleware)` on the heap: if the queue array is
empty, throw; otherwise `middleware.shift()` removes and returns the head
(mutating the array), and the head's `process` runs with a next-handler that
recursively dispatches against the now-one-shorter shared array. -/
def RequestHandler.handleRequest {Req Resp : Type} (σ : Store Req Resp)
    (qref : Nat) (req : Req) : Except String Resp × Store Req Resp :=
  match hq : σ.get qref with
  | [] => (.error noMiddlewareMessage, σ)
  | m :: rest =>
    match m.process req with
    | .respond resp => (.ok resp, σ.set qref rest)
    | .throwErr msg => (.error msg, σ.set qref rest)
    | .forward req2 after =>
      let pr := RequestHandler.handleRequest (σ.set qref rest) qref req2
      (applyAfter after pr.1, pr.2)
termination_by (σ.get qref).length
decreasing_by simp [Store.get_set_same, hq]

/-- The method `handle(request)`: dispatch against `this.middleware.slice()` — a freshly
allocated copy of the stored array. -/
def RequestHandler.handle {Req Resp : Type} (σ : Store Req Resp)
    (h : RequestHandler) (req : Req) : Except String Resp × Store Req Resp :=
  let (qref, σ1) := σ.alloc (σ.get h.middlewareRef)
  RequestHandler.handleRequest σ1 qref req

/-- Pure view of the dispatch: the same algorithm by structural recursion on
the queue contents (proved equivalent to the heap version below). -/
def handleRequestPure {Req Resp : Type} (req : Req) :
    List (Middleware Req Resp) → Except String Resp
  | [] => .error noMiddlewareMessage
  | m :: rest =>
    match m.process req with
    | .respond resp => .ok resp
    | .throwErr msg => .error msg
    | .forward req2 after => applyAfter after (handleRequestPure req2 rest)

/-- Contents left in the per-call queue array once the dispatch returns: the
heads consumed by `shift()` are gone. -/
def remainingQueue {Req Resp : Type} (req : Req) :
    List (Middleware Req Resp) → List (Middleware Req Resp)
  | [] => []
  | m :: rest =>
    match m.process req with
    | .forward req2 _ => remainingQueue req2 rest
    | _ => rest

/-- Instrumented dispatch: also returns, in order, the position (0-based, from
the front of the queue) and the request value received by each middleware unit
whose `process` method is invoked. -/
def handleRequestTraced {Req Resp : Type} (req : Req) :
    List (Middleware Req Resp) → Except String Resp × List (Nat × Req)
  | [] => (.error noMiddlewareMessage, [])
  | m :: rest =>
    match m.process req with
    | .respond resp => (.ok resp, [(0, req)])
    | .throwErr msg => (.error msg, [(0, req)])
    | .forward req2 after =>
      let pr := handleRequestTraced req2 rest
      (applyAfter after pr.1, (0, req) :: pr.2.map (fun p => (p.1 + 1, p.2)))

theorem handleRequestTraced_fst {Req Resp : Type} (req : Req)
    (q : List (Middleware Req Resp)) :
    (handleRequestTraced req q).1 = handleRequestPure req q := by
  induction q generalizing req with
  | nil => rfl
  | cons m rest ih =>
    simp only [handleRequestTraced, handleRequestPure]
    cases m.process req with
    | respond resp => rfl
    | throwErr msg => rfl
    | forward req2 after => simp [ih]

theorem handleRequest_nil {Req Resp : Type} (σ : Store Req Resp) (qref : Nat)
    (req : Req) (hq : σ.get qref = []) :
    RequestHandler.handleRequest σ qref req = (.error noMiddlewareMessage, σ) := by
  rw [RequestHandler.handleRequest]
  split
  · rfl
  · rename_i m rest heq
    rw [hq] at heq
    exact absurd heq (by simp)

theorem handleRequest_cons {Req Resp : Type} (σ : Store Req Resp) (qref : Nat)
    (req : Req) (m : Middleware Req Resp) (rest : List (Middleware Req Resp))
    (hq : σ.get qref = m :: rest) :
    RequestHandler.handleRequest σ qref req =
      match m.process req with
      | .respond resp => (.ok resp, σ.set qref rest)
      | .throwErr msg => (.error msg, σ.set qref rest)
      | .forward req2 after =>
        let pr := RequestHandler.handleRequest (σ.set qref rest) qref req2
        (applyAfter after pr.1, pr.2) := by
  rw [RequestHandler.handleRequest]
  split
  · rename_i heq
    rw [hq] at heq
    exact absurd heq (by simp)
  · rename_i m1 rest1 heq
    rw [hq] at heq
    injection heq with h1 h2
    subst h1
    subst h2
    rfl

/-- Refinement: the heap dispatch computes the pure result, and its only
effect on the heap is consuming the queue array it was given. -/
theorem handleRequest_spec {Req Resp : Type} (q : List (Middleware Req Resp))
    (σ : Store Req Resp) (qref : Nat) (req : Req) (hq : σ.get qref = q) :
    RequestHandler.handleRequest σ qref req =
      (handleRequestPure req q, σ.set qref (remainingQueue req q)) := by
  induction q generalizing σ req with
  | nil =>
    have h2 : σ.set qref [] = σ := by
      rw [← hq]
      exact Store.set_get_same σ qref
    simp [handleRequest_nil σ qref req hq, handleRequestPure, remainingQueue, h2]
  | cons m rest ih =>
    rw [handleRequest_cons σ qref req m rest hq]
    cases hp : m.process req with
    | respond resp => simp [handleRequestPure, remainingQueue, hp]
    | throwErr msg => simp [handleRequestPure, remainingQueue, hp]
    | forward req2 after =>
      have hrec := ih (σ.set qref rest) req2 (Store.get_set_same σ qref rest)
      simp [handleRequestPure, remainingQueue, hp, hrec, Store.set_set_same]

/-- An application Request value.  Headers are an ordered multi-map: entry
order is first-appearance order of names, and each name maps to its ordered
list of values.  The body stream is outside the embedding. -/
structure Request where
  method : String
  url : String
  headers : List (String × List String)

/-- Modelled from the spec: apollo-http's `RequestFactory.createRequest` (the
factory is an external collaborator, not in this repository) builds an
immutable Request from a method and an absolute URL, with no headers yet. -/
def createRequest (method url : String) : Request :=
  ⟨method, url, []⟩

/-- Modelled from the spec: apollo-http's `Request.withHeader` (external
collaborator) is a functional update returning a new Request whose ordered
multi-map of headers gained `value` at the end of `name`'s ordered value list,
appending a fresh entry at the end when the name is new, preserving order and
duplicate multi-values. -/
def Request.withHeader (r : Request) (name value : String) : Request :=
  if r.headers.any (fun p => p.1 == name) then
    { r with headers :=
        r.headers.map (fun p => if p.1 == name then (p.1, p.2 ++ [value]) else p) }
  else
    { r with headers := r.headers ++ [(name, [value])] }

/-- The ordered list of values a Request exposes for a header name. -/
def Request.headerValues (r : Request) (name : String) : List String :=
  ((r.headers.find? (fun p => p.1 == name)).map Prod.snd).getD []

/-- The header-folding loop of Server.handleRequest (part_000 lines 106-108):
`for (let i = 0; i < req.rawHeaders.length; i += 2)` reassigns
`request = request.withHeader(rawHeaders[i], rawHeaders[i + 1])`.  The raw
headers are the transport's alternating flat name/value sequence. -/
def foldRawHeaders (r : Request) : List String → Request
  | name :: value :: rest => foldRawHeaders (r.withHeader name value) rest
  | _ => r

/-- The alternating flat name/value sequence of a list of raw header pairs. -/
def rawHeaderSequence (pairs : List (String × String)) : List String :=
  pairs.foldr (fun p acc => p.1 :: p.2 :: acc) []

/-- An application Response value: status code, reason phrase, and ordered
headers (an object keyed by name, each name with its ordered value list).
The body stream is outside the embedding. -/
structure Response where
  statusCode : Nat
  reasonPhrase : String
  headers : List (String × List String)

/-- The header serialization of Server.handleRequest (part_000 lines 116-119):
`Object.entries(response.headers).reduce(...)` accumulates, in entry order, a
line per header whose value is `values.join(",")`. -/
def serializeResponseHeaders (headers : List (String × List String)) :
    List (String × String) :=
  headers.foldl (fun acc p => acc ++ [(p.1, String.intercalate "," p.2)]) []

/-- The arguments Server.handleRequest passes to the transport's
`res.writeHead`: status code, reason phrase, serialized headers. -/
def responseHead (resp : Response) : Nat × String × List (String × String) :=
  (resp.statusCode, resp.reasonPhrase, serializeResponseHeaders resp.headers)

/-- The next-handler given to a middleware unit:
`new Proxy(handlerFunction, {get: target => target})` — a callable whose
every property read is answered by the `get` trap with the target function
itself. -/
structure HandlerProxy (Req Resp : Type) where
  target : Req → Except String Resp

/-- The method `createRequestHandler(handlerFunction)` wraps a dispatch function in the
proxy. -/
def createRequestHandler {Req Resp : Type} (f : Req → Except String Resp) :
    HandlerProxy Req Resp :=
  ⟨f⟩

/-- Property access on the proxy: the `get` trap `target => target` returns
the target function for every property name. -/
def HandlerProxy.get {Req Resp : Type} (p : HandlerProxy Req Resp)
    (_prop : String) : Req → Except String Resp :=
  p.target

/-- Calling the proxy directly as a function applies the target. -/
def HandlerProxy.callAsFunction {Req Resp : Type} (p : HandlerProxy Req Resp)
    (req : Req) : Except String Resp :=
  p.target req

/-- Calling the proxy's `handle` method: read property "handle", then call. -/
def HandlerProxy.handleMethod {Req Resp : Type} (p : HandlerProxy Req Resp)
    (req : Req) : Except String Resp :=
  (p.get "handle") req

/-- The next-handler the dispatcher creates at a step whose remaining queue is
`rest`: `this.createRequestHandler(request => this.handleRequest(request,
middleware))`, the shared array holding `rest` after the `shift()`. -/
def nextRequestHandler {Req Resp : Type} (rest : List (Middleware Req Resp)) :
    HandlerProxy Req Resp :=
  createRequestHandler (fun r => handleRequestPure r rest)

/-- The ServerBuilder state relevant to building: the node-server factory is
absent until `useServerFactory` supplies one.  The container, configuration,
logger and startup wiring are external collaborators (spec §1) and cannot
supply a factory on their own. -/
structure ServerBuilder (F : Type) where
  serverFactory : Option F

/-- A freshly constructed builder has no server factory. -/
def ServerBuilder.new (F : Type) : ServerBuilder F :=
  ⟨none⟩

/-- The method `useServerFactory(serverFactory)` records the factory and returns `this`. -/
def ServerBuilder.useServerFactory {F : Type} (b : ServerBuilder F) (f : F) :
    ServerBuilder F :=
  { b with serverFactory := some f }

/-- Stand-in for the Server instance `build` constructs from the factory's
node server; a served request would require such a value. -/
structure BuiltServer (F : Type) where
  factory : F

/-- ServerBuilder.build (part_000 lines 211-241): after the container wiring,
`if (!this.serverFactory) throw new Error("No server factory provided")`; only
then is the Server constructed from `this.serverFactory()`. -/
def ServerBuilder.build {F : Type} (b : ServerBuilder F) :
    Except String (BuiltServer F) :=
  match b.serverFactory with
  | none => .error "No server factory provided"
  | some f => .ok ⟨f⟩

theorem find?_map_header_update (l : List (String × List String))
    (n v name : String) :
    (l.map (fun p => if p.1 == n then (p.1, p.2 ++ [v]) else p)).find?
        (fun p => p.1 == name)
      = (l.find? (fun p => p.1 == name)).map
          (fun p => if p.1 == n then (p.1, p.2 ++ [v]) else p) := by
  induction l with
  | nil => rfl
  | cons p t ih =>
    have hfst : ((if p.1 == n then (p.1, p.2 ++ [v]) else p).1) = p.1 := by
      split <;> rfl
    cases hp : (p.1 == name) with
    | true =>
      have h1 : ((if p.1 == n then (p.1, p.2 ++ [v]) else p).1 == name) = true := by
        rw [hfst]
        exact hp
      rw [List.map_cons,
        List.find?_cons_of_pos (p := fun q : String × List String => q.1 == name) _ h1,
        List.find?_cons_of_pos (p := fun q : String × List String => q.1 == name) _ hp,
        Option.map_some']
    | false =>
      have h1 : ¬ ((if p.1 == n then (p.1, p.2 ++ [v]) else p).1 == name) = true := by
        rw [hfst]
        simp [hp]
      rw [List.map_cons,
        List.find?_cons_of_neg (p := fun q : String × List String => q.1 == name) _ h1,
        List.find?_cons_of_neg (p := fun q : String × List String => q.1 == name) _
          (by simp [hp]), ih]

theorem find?_none_of_any_false (l : List (String × List String))
    (name : String) (h : l.any (fun p => p.1 == name) = false) :
    l.find? (fun p => p.1 == name) = none := by
  rw [List.find?_eq_none]
  intro p hp
  simp only [List.any_eq_false] at h
  exact h p hp


/-- Effect of one with-header operation on the exposed values of a name:
the matching name gains `v` at the end of its ordered value list, every other
name is untouched. -/
theorem headerValues_withHeader (r : Request) (n v name : String) :
    (r.withHeader n v).headerValues name
      = if name = n then r.headerValues name ++ [v] else r.headerValues name := by
  by_cases hany : r.headers.any (fun p => p.1 == n) = true
  · have hw : (r.withHeader n v).headers
        = r.headers.map (fun p => if p.1 == n then (p.1, p.2 ++ [v]) else p) := by
      rw [Request.withHeader, if_pos hany]
    unfold Request.headerValues
    rw [hw, find?_map_header_update]
    by_cases hnn : name = n
    · subst hnn
      rw [List.any_eq_true] at hany
      obtain ⟨x, hx, hpx⟩ := hany
      cases hf : r.headers.find? (fun p => p.1 == name) with
      | none => exact absurd hpx (List.find?_eq_none.mp hf x hx)
      | some q =>
        have hq : q.1 = name := by
          simpa using
            List.find?_some (p := fun s : String × List String => s.1 == name) hf
        simp [hq]
    · cases hf : r.headers.find? (fun p => p.1 == name) with
      | none => simp [hnn]
      | some q =>
        have hq : q.1 = name := by
          simpa using
            List.find?_some (p := fun s : String × List String => s.1 == name) hf
        have hqn : ¬ q.1 = n := by
          rw [hq]
          exact hnn
        simp [hnn, hqn]
  · have hany2 : r.headers.any (fun p => p.1 == n) = false := by
      cases h : r.headers.any (fun p => p.1 == n)
      · rfl
      · exact absurd h hany
    have hw : (r.withHeader n v).headers = r.headers ++ [(n, [v])] := by
      rw [Request.withHeader, if_neg hany]
    unfold Request.headerValues
    rw [hw, List.find?_append]
    by_cases hnn : name = n
    · subst hnn
      have hnone := find?_none_of_any_false r.headers name hany2
      rw [hnone,
        List.find?_cons_of_pos (p := fun s : String × List String => s.1 == name) _
          (by simp)]
      simp
    · have hne : ¬ (((n, [v]) : String × List String).1 == name) = true := by
        simp only [beq_iff_eq]
        exact fun h => hnn h.symm
      cases hf : r.headers.find? (fun p => p.1 == name) with
      | none =>
        rw [List.find?_cons_of_neg (p := fun s : String × List String => s.1 == name) _
          hne]
        simp [hnn]
      | some q => simp [Option.or, hnn]

/-- The folding loop is literally the left fold of with-header over the raw
pairs in sequence order. -/
theorem foldRawHeaders_eq_foldl (pairs : List (String × String)) (r : Request) :
    foldRawHeaders r (rawHeaderSequence pairs)
      = pairs.foldl (fun r p => r.withHeader p.1 p.2) r := by
  induction pairs generalizing r with
  | nil => rfl
  | cons a ps ih =>
    simp only [rawHeaderSequence, List.foldr_cons, List.foldl_cons] at *
    rw [foldRawHeaders, ih]

/-- Order- and duplicate-preservation of the header folding: after folding an
alternating raw sequence, a name exposes its previous values followed by the
raw pair values carrying that name, in sequence order. -/
theorem headerValues_foldRawHeaders (pairs : List (String × String))
    (r : Request) (name : String) :
    (foldRawHeaders r (rawHeaderSequence pairs)).headerValues name
      = r.headerValues name
          ++ (pairs.filter (fun p => p.1 == name)).map Prod.snd := by
  induction pairs generalizing r with
  | nil => simp [rawHeaderSequence, foldRawHeaders]
  | cons a ps ih =>
    simp only [rawHeaderSequence, List.foldr_cons] at *
    rw [foldRawHeaders, ih, headerValues_withHeader]
    by_cases hna : name = a.1
    · rw [if_pos hna, List.filter_cons_of_pos (by simp [hna])]
      simp
    · rw [if_neg hna, List.filter_cons_of_neg
        (by simp only [beq_iff_eq]; exact fun h => hna h.symm)]

theorem foldl_append_serialize (l : List (String × List String))
    (acc : List (String × String)) :
    l.foldl (fun a p => a ++ [(p.1, String.intercalate "," p.2)]) acc
      = acc ++ l.map (fun p => (p.1, String.intercalate "," p.2)) := by
  induction l generalizing acc with
  | nil => simp
  | cons p t ih => simp [ih]

/-- The reduce over Object.entries builds exactly one comma-joined line per
header, in entry order. -/
theorem serializeResponseHeaders_eq_map (headers : List (String × List String)) :
    serializeResponseHeaders headers
      = headers.map (fun p => (p.1, String.intercalate "," p.2)) := by
  simpa using foldl_append_serialize headers []

theorem handleRequestTraced_fst_respond {Req Resp : Type}
    {m : Middleware Req Resp} {rest : List (Middleware Req Resp)} {req : Req}
    {resp : Resp} (hp : m.process req = .respond resp) :
    (handleRequestTraced req (m :: rest)).1 = .ok resp := by
  simp [handleRequestTraced, hp]

theorem handleRequestTraced_snd_respond {Req Resp : Type}
    {m : Middleware Req Resp} {rest : List (Middleware Req Resp)} {req : Req}
    {resp : Resp} (hp : m.process req = .respond resp) :
    (handleRequestTraced req (m :: rest)).2 = [(0, req)] := by
  simp [handleRequestTraced, hp]

theorem handleRequestTraced_fst_throw {Req Resp : Type}
    {m : Middleware Req Resp} {rest : List (Middleware Req Resp)} {req : Req}
    {msg : String} (hp : m.process req = .throwErr msg) :
    (handleRequestTraced req (m :: rest)).1 = .error msg := by
  simp [handleRequestTraced, hp]

theorem handleRequestTraced_snd_throw {Req Resp : Type}
    {m : Middleware Req Resp} {rest : List (Middleware Req Resp)} {req : Req}
    {msg : String} (hp : m.process req = .throwErr msg) :
    (handleRequestTraced req (m :: rest)).2 = [(0, req)] := by
  simp [handleRequestTraced, hp]

theorem handleRequestTraced_fst_forward {Req Resp : Type}
    {m : Middleware Req Resp} {rest : List (Middleware Req Resp)} {req req2 : Req}
    {after : Resp → Except String Resp} (hp : m.process req = .forward req2 after) :
    (handleRequestTraced req (m :: rest)).1
      = applyAfter after (handleRequestTraced req2 rest).1 := by
  simp [handleRequestTraced, hp]

theorem handleRequestTraced_snd_forward {Req Resp : Type}
    {m : Middleware Req Resp} {rest : List (Middleware Req Resp)} {req req2 : Req}
    {after : Resp → Except String Resp} (hp : m.process req = .forward req2 after) :
    (handleRequestTraced req (m :: rest)).2
      = (0, req) :: (handleRequestTraced req2 rest).2.map (fun p => (p.1 + 1, p.2)) := by
  simp [handleRequestTraced, hp]

theorem handleRequestPure_respond {Req Resp : Type}
    {m : Middleware Req Resp} {rest : List (Middleware Req Resp)} {req : Req}
    {resp : Resp} (hp : m.process req = .respond resp) :
    handleRequestPure req (m :: rest) = .ok resp := by
  simp [handleRequestPure, hp]

theorem handleRequestPure_throw {Req Resp : Type}
    {m : Middleware Req Resp} {rest : List (Middleware Req Resp)} {req : Req}
    {msg : String} (hp : m.process req = .throwErr msg) :
    handleRequestPure req (m :: rest) = .error msg := by
  simp [handleRequestPure, hp]

theorem handleRequestPure_forward {Req Resp : Type}
    {m : Middleware Req Resp} {rest : List (Middleware Req Resp)} {req req2 : Req}
    {after : Resp → Except String Resp} (hp : m.process req = .forward req2 after) :
    handleRequestPure req (m :: rest)
      = applyAfter after (handleRequestPure req2 rest) := by
  simp [handleRequestPure, hp]

/-- Invocation order: a dispatch over a non-empty queue invokes positions
0, 1, ..., k-1 for some positive k within the queue, and when the dispatch
produces a response the last invoked unit responded without forwarding. -/
theorem traced_invocations {Req Resp : Type} (req : Req)
    (q : List (Middleware Req Resp)) (hq : q ≠ []) :
    ∃ k, 0 < k ∧ k ≤ q.length
      ∧ (handleRequestTraced req q).2.map Prod.fst = List.range k
      ∧ (∀ resp0, (handleRequestTraced req q).1 = .ok resp0 →
          ∃ r m resp2, ((k - 1, r) ∈ (handleRequestTraced req q).2)
            ∧ q.get? (k - 1) = some m ∧ m.process r = MwAction.respond resp2) := by
  induction q generalizing req with
  | nil => exact absurd rfl hq
  | cons m rest ih =>
    cases hp : m.process req with
    | respond resp =>
      refine ⟨1, one_pos, by simp, ?_, ?_⟩
      · rw [handleRequestTraced_snd_respond hp]
        simp [List.range_succ]
      · intro resp0 _
        exact ⟨req, m, resp, by rw [handleRequestTraced_snd_respond hp]; simp,
          by simp, hp⟩
    | throwErr msg =>
      refine ⟨1, one_pos, by simp, ?_, ?_⟩
      · rw [handleRequestTraced_snd_throw hp]
        simp [List.range_succ]
      · intro resp0 hok
        rw [handleRequestTraced_fst_throw hp] at hok
        exact absurd hok (by simp)
    | forward req2 after =>
      cases rest with
      | nil =>
        refine ⟨1, one_pos, by simp, ?_, ?_⟩
        · rw [handleRequestTraced_snd_forward hp]
          simp [handleRequestTraced, List.range_succ]
        · intro resp0 hok
          rw [handleRequestTraced_fst_forward hp] at hok
          simp [handleRequestTraced, applyAfter] at hok
      | cons m2 rest2 =>
        obtain ⟨k, hk0, hklen, htr, hok⟩ := ih req2 (by simp)
        refine ⟨k + 1, Nat.succ_pos k, by simpa using hklen, ?_, ?_⟩
        · have hstep : (handleRequestTraced req (m :: m2 :: rest2)).2.map Prod.fst
              = 0 :: ((handleRequestTraced req2 (m2 :: rest2)).2.map Prod.fst).map
                  (fun x => x + 1) := by
            rw [handleRequestTraced_snd_forward hp]
            simp [List.map_map, Function.comp]
          rw [hstep, htr, List.range_succ_eq_map]
        · intro resp0 hok0
          rw [handleRequestTraced_fst_forward hp] at hok0
          cases h2 : (handleRequestTraced req2 (m2 :: rest2)).1 with
          | error e =>
            rw [h2] at hok0
            exact absurd hok0 (by simp [applyAfter])
          | ok resp3 =>
            obtain ⟨r, mm, resp2, hmem, hget, hproc⟩ := hok resp3 h2
            have hk : k - 1 + 1 = k := Nat.succ_pred_eq_of_pos hk0
            refine ⟨r, mm, resp2, ?_, ?_, hproc⟩
            · rw [handleRequestTraced_snd_forward hp, Nat.add_sub_cancel]
              refine List.mem_cons_of_mem _ ?_
              have := List.mem_map_of_mem (fun p : Nat × Req => (p.1 + 1, p.2)) hmem
              simpa [hk] using this
            · rw [Nat.add_sub_cancel, ← hk, List.get?_cons_succ]
              simpa [hk] using hget

theorem handle_eq {Req Resp : Type} (σ : Store Req Resp) (h : RequestHandler)
    (req : Req) :
    RequestHandler.handle σ h req
      = RequestHandler.handleRequest (σ.alloc (σ.get h.middlewareRef)).2
          (σ.alloc (σ.get h.middlewareRef)).1 req :=
  rfl

/-- Refinement for the entry point: `handle` computes the pure dispatch of the
stored list's contents, and its heap effect is allocating the snapshot copy
and consuming it. -/
theorem handle_spec {Req Resp : Type} (σ : Store Req Resp) (h : RequestHandler)
    (req : Req) :
    RequestHandler.handle σ h req
      = (handleRequestPure req (σ.get h.middlewareRef),
         (σ.alloc (σ.get h.middlewareRef)).2.set σ.next
           (remainingQueue req (σ.get h.middlewareRef))) := by
  rw [handle_eq,
    handleRequest_spec (σ.get h.middlewareRef) _ _ _
      (Store.get_alloc_fresh σ (σ.get h.middlewareRef))]
  rfl

theorem handle_fst {Req Resp : Type} (σ : Store Req Resp) (h : RequestHandler)
    (req : Req) :
    (RequestHandler.handle σ h req).1
      = handleRequestPure req (σ.get h.middlewareRef) := by
  rw [handle_spec]

theorem handle_snd {Req Resp : Type} (σ : Store Req Resp) (h : RequestHandler)
    (req : Req) :
    (RequestHandler.handle σ h req).2
      = (σ.alloc (σ.get h.middlewareRef)).2.set σ.next
          (remainingQueue req (σ.get h.middlewareRef)) := by
  rw [handle_spec]

theorem handle_next {Req Resp : Type} (σ : Store Req Resp) (h : RequestHandler)
    (req : Req) :
    (RequestHandler.handle σ h req).2.next = σ.next + 1 := by
  rw [handle_snd, Store.next_set]
  rfl

theorem traced_head {Req Resp : Type} (req : Req)
    (q : List (Middleware Req Resp)) (hq : q ≠ []) :
    ∃ t, (handleRequestTraced req q).2 = (0, req) :: t := by
  cases q with
  | nil => exact absurd rfl hq
  | cons m rest =>
    cases hp : m.process req with
    | respond resp => exact ⟨[], handleRequestTraced_snd_respond hp⟩
    | throwErr msg => exact ⟨[], handleRequestTraced_snd_throw hp⟩
    | forward req2 after =>
      exact ⟨(handleRequestTraced req2 rest).2.map (fun p => (p.1 + 1, p.2)),
        handleRequestTraced_snd_forward hp⟩

/-- Concrete middleware used to evaluate the theorems: responds directly. -/
def mwRespond : Middleware Nat Nat :=
  ⟨fun r => .respond (r + 100)⟩

/-- Concrete middleware: forwards a modified request and returns the
downstream response unchanged. -/
def mwForward : Middleware Nat Nat :=
  ⟨fun r => .forward (r + 1) (fun resp => .ok resp)⟩

/-- Concrete middleware: throws. -/
def mwThrow : Middleware Nat Nat :=
  ⟨fun _ => .throwErr "boom"⟩

/-- A concrete heap whose array 0 is empty (a handler with no middleware). -/
def storeEmpty : Store Nat Nat :=
  ⟨1, fun _ => []⟩

/-- A concrete heap whose array 0 holds one responding unit. -/
def storeOne : Store Nat Nat :=
  ⟨1, fun r => if r = 0 then [mwRespond] else []⟩

/-- A concrete heap whose array 0 holds a forwarding unit then a responder. -/
def storeTwo : Store Nat Nat :=
  ⟨1, fun r => if r = 0 then [mwForward, mwRespond] else []⟩

/-- C1: for every non-empty ordered middleware list, the dispatch invokes the
units' process methods in exactly registration order — the invoked positions
are 0, 1, ..., k-1 for some positive k within the list — every position from k
on is never invoked, and when the dispatch produces a response the last
invoked unit returned a response without invoking its next-handler. -/
theorem c1_dispatch_in_registration_order {Req Resp : Type} (req : Req)
    (q : List (Middleware Req Resp)) (hq : q ≠ []) :
    ∃ k, 0 < k ∧ k ≤ q.length
      ∧ (handleRequestTraced req q).2.map Prod.fst = List.range k
      ∧ (∀ j, k ≤ j → j ∉ (handleRequestTraced req q).2.map Prod.fst)
      ∧ (∀ resp0, (handleRequestTraced req q).1 = .ok resp0 →
          ∃ r m resp2, ((k - 1, r) ∈ (handleRequestTraced req q).2)
            ∧ q.get? (k - 1) = some m ∧ m.process r = MwAction.respond resp2) := by
  obtain ⟨k, hk0, hklen, htr, hok⟩ := traced_invocations req q hq
  refine ⟨k, hk0, hklen, htr, ?_, hok⟩
  intro j hj hmem
  rw [htr] at hmem
  exact absurd (List.mem_range.mp hmem) (by omega)

/-- C1 witness: a singleton queue with a responding unit, at request 5. -/
theorem c1_dispatch_in_registration_order_witness :
    (([mwRespond] : List (Middleware Nat Nat)) ≠ [])
    ∧ ∃ k, 0 < k ∧ k ≤ [mwRespond].length
      ∧ (handleRequestTraced 5 [mwRespond]).2.map Prod.fst = List.range k
      ∧ (∀ j, k ≤ j → j ∉ (handleRequestTraced 5 [mwRespond]).2.map Prod.fst)
      ∧ (∀ resp0, (handleRequestTraced 5 [mwRespond]).1 = .ok resp0 →
          ∃ r m resp2, ((k - 1, r) ∈ (handleRequestTraced 5 [mwRespond]).2)
            ∧ [mwRespond].get? (k - 1) = some m
            ∧ m.process r = MwAction.respond resp2) :=
  ⟨by simp, c1_dispatch_in_registration_order 5 [mwRespond] (by simp)⟩

/-- C2: whenever the dispatch queue is empty at the moment it is invoked —
`handle` on a handler whose stored list is empty, or the single/last unit of
the chain forwards to its next-handler — the dispatch fails with the
no-middleware-available error; for an empty list `handle` always fails this
way. -/
theorem c2_empty_queue_fails :
    (∀ (Req Resp : Type) (σ : Store Req Resp) (h : RequestHandler) (req : Req),
        σ.get h.middlewareRef = [] →
        (RequestHandler.handle σ h req).1 = .error noMiddlewareMessage)
    ∧ (∀ (Req Resp : Type) (req : Req),
        handleRequestPure req ([] : List (Middleware Req Resp)) = .error noMiddlewareMessage)
    ∧ (∀ (Req Resp : Type) (m : Middleware Req Resp) (req req2 : Req)
        (after : Resp → Except String Resp),
        m.process req = .forward req2 after →
        handleRequestPure req [m] = .error noMiddlewareMessage) := by
  refine ⟨?_, ?_, ?_⟩
  · intro Req Resp σ h req hemp
    rw [handle_fst, hemp]
    rfl
  · intro Req Resp req
    rfl
  · intro Req Resp m req req2 after hp
    rw [handleRequestPure_forward hp]
    rfl

/-- C2 witness: the empty handler at request 7, and a single forwarding unit. -/
theorem c2_empty_queue_fails_witness :
    (storeEmpty.get (RequestHandler.mk 0).middlewareRef = []
      ∧ (RequestHandler.handle storeEmpty (RequestHandler.mk 0) 7).1
          = .error noMiddlewareMessage)
    ∧ handleRequestPure 7 ([] : List (Middleware Nat Nat))
        = .error noMiddlewareMessage
    ∧ (mwForward.process 7 = .forward 8 (fun resp => .ok resp)
      ∧ handleRequestPure 7 [mwForward] = .error noMiddlewareMessage) :=
  ⟨⟨rfl, c2_empty_queue_fails.1 Nat Nat storeEmpty (RequestHandler.mk 0) 7 rfl⟩,
   c2_empty_queue_fails.2.1 Nat Nat 7,
   rfl, c2_empty_queue_fails.2.2 Nat Nat mwForward 7 8 (fun resp => .ok resp) rfl⟩

/-- C5: when a middleware unit forwards a modified request to its
next-handler, every downstream invocation (and the terminal empty-queue
check) belongs to the dispatch of exactly that modified request: the trace
continues with the trace of dispatching the modified request over the rest,
the immediately following unit receives exactly the modified request, and the
overall result is the forwarding unit's continuation applied to the dispatch
of the modified request. -/
theorem c5_downstream_sees_modified_request {Req Resp : Type}
    (m : Middleware Req Resp) (rest : List (Middleware Req Resp))
    (req req2 : Req) (after : Resp → Except String Resp)
    (hp : m.process req = .forward req2 after) :
    (handleRequestTraced req (m :: rest)).2
        = (0, req) :: (handleRequestTraced req2 rest).2.map (fun p => (p.1 + 1, p.2))
    ∧ (rest ≠ [] →
        (handleRequestTraced req (m :: rest)).2.get? 1 = some (1, req2))
    ∧ handleRequestPure req (m :: rest)
        = applyAfter after (handleRequestPure req2 rest) := by
  refine ⟨handleRequestTraced_snd_forward hp, ?_, handleRequestPure_forward hp⟩
  intro hrest
  obtain ⟨t, ht⟩ := traced_head req2 rest hrest
  rw [handleRequestTraced_snd_forward hp, ht]
  rfl

/-- C5 witness: a forwarding unit ahead of a responding unit, at request 5;
the modified request is 6. -/
theorem c5_downstream_sees_modified_request_witness :
    mwForward.process 5 = .forward 6 (fun resp => .ok resp)
    ∧ ((handleRequestTraced 5 [mwForward, mwRespond]).2
        = (0, 5) :: (handleRequestTraced 6 [mwRespond]).2.map (fun p => (p.1 + 1, p.2))
      ∧ (([mwRespond] : List (Middleware Nat Nat)) ≠ [] →
          (handleRequestTraced 5 [mwForward, mwRespond]).2.get? 1 = some (1, 6))
      ∧ handleRequestPure 5 [mwForward, mwRespond]
          = applyAfter (fun resp => .ok resp) (handleRequestPure 6 [mwRespond])) :=
  ⟨rfl, c5_downstream_sees_modified_request mwForward [mwRespond] 5 6
    (fun resp => .ok resp) rfl⟩

/-- C6: an error thrown by any middleware unit, or the empty-queue error,
propagates as-is: a unit that throws makes the dispatch fail with exactly
that error, an error of the downstream dispatch passes through a forwarding
unit unmodified, and any error of the pure dispatch of the stored list is the
exact failure of `handle` — no catching, wrapping, translation, retry or
logging exists on the error path. -/
theorem c6_error_propagates_unmodified :
    (∀ (Req Resp : Type) (m : Middleware Req Resp)
        (rest : List (Middleware Req Resp)) (req : Req) (msg : String),
        m.process req = .throwErr msg →
        handleRequestPure req (m :: rest) = .error msg)
    ∧ (∀ (Req Resp : Type) (m : Middleware Req Resp)
        (rest : List (Middleware Req Resp)) (req req2 : Req)
        (after : Resp → Except String Resp) (msg : String),
        m.process req = .forward req2 after →
        handleRequestPure req2 rest = .error msg →
        handleRequestPure req (m :: rest) = .error msg)
    ∧ (∀ (Req Resp : Type) (σ : Store Req Resp) (h : RequestHandler)
        (req : Req) (msg : String),
        handleRequestPure req (σ.get h.middlewareRef) = .error msg →
        (RequestHandler.handle σ h req).1 = .error msg) := by
  refine ⟨?_, ?_, ?_⟩
  · intro Req Resp m rest req msg hp
    exact handleRequestPure_throw hp
  · intro Req Resp m rest req req2 after msg hp herr
    rw [handleRequestPure_forward hp, herr]
    rfl
  · intro Req Resp σ h req msg herr
    rw [handle_fst]
    exact herr

/-- C6 witness: a throwing unit, a forwarding unit over an empty rest, and
the empty handler. -/
theorem c6_error_propagates_unmodified_witness :
    (mwThrow.process 3 = .throwErr "boom"
      ∧ handleRequestPure 3 [mwThrow] = .error "boom")
    ∧ (mwForward.process 3 = .forward 4 (fun resp => .ok resp)
      ∧ handleRequestPure 4 ([] : List (Middleware Nat Nat))
          = .error noMiddlewareMessage
      ∧ handleRequestPure 3 [mwForward] = .error noMiddlewareMessage)
    ∧ (handleRequestPure 7 (storeEmpty.get (RequestHandler.mk 0).middlewareRef)
          = .error noMiddlewareMessage
      ∧ (RequestHandler.handle storeEmpty (RequestHandler.mk 0) 7).1
          = .error noMiddlewareMessage) :=
  ⟨⟨rfl, c6_error_propagates_unmodified.1 Nat Nat mwThrow [] 3 "boom" rfl⟩,
   ⟨rfl, rfl, c6_error_propagates_unmodified.2.1 Nat Nat mwForward [] 3 4
     (fun resp => .ok resp) noMiddlewareMessage rfl rfl⟩,
   rfl, c6_error_propagates_unmodified.2.2 Nat Nat storeEmpty
     (RequestHandler.mk 0) 7 noMiddlewareMessage rfl⟩

/-- C10: the next-handler is a proxy whose every property access — `handle`
included — yields the underlying dispatch function, so calling it directly as
a function and calling its handle method perform the identical dispatch of
the remaining queue and return equal results. -/
theorem c10_proxy_call_styles_agree {Req Resp : Type}
    (rest : List (Middleware Req Resp)) (prop : String) (req : Req) :
    (nextRequestHandler rest).get prop = (nextRequestHandler rest).target
    ∧ (nextRequestHandler rest).handleMethod req
        = (nextRequestHandler rest).callAsFunction req
    ∧ (nextRequestHandler rest).callAsFunction req = handleRequestPure req rest
    ∧ (nextRequestHandler rest).handleMethod req = handleRequestPure req rest :=
  ⟨rfl, rfl, rfl, rfl⟩

theorem addMiddleware_snd {Req Resp : Type} (σ : Store Req Resp)
    (h : RequestHandler) (m : Middleware Req Resp) :
    (RequestHandler.addMiddleware σ h m).2
      = σ.set h.middlewareRef (σ.get h.middlewareRef ++ [m]) :=
  rfl

/-- C4: each `handle` call snapshots the middleware list at call time — after
the snapshot of an in-flight call is taken, an `addMiddleware` leaves that
call's queue array holding exactly the old list, its dispatch equals the pure
dispatch of the old list, while a `handle` started after the addition
dispatches the list with the added unit. -/
theorem c4_copy_on_dispatch_snapshot {Req Resp : Type} (σ : Store Req Resp)
    (h : RequestHandler) (m : Middleware Req Resp) (req req2 : Req)
    (qref : Nat) (σ1 σ2 : Store Req Resp)
    (hvalid : h.middlewareRef < σ.next)
    (hsnap : σ.alloc (σ.get h.middlewareRef) = (qref, σ1))
    (hadd : (RequestHandler.addMiddleware σ1 h m).2 = σ2) :
    σ2.get qref = σ.get h.middlewareRef
    ∧ (RequestHandler.handleRequest σ2 qref req).1
        = handleRequestPure req (σ.get h.middlewareRef)
    ∧ (RequestHandler.handle σ2 h req2).1
        = handleRequestPure req2 (σ.get h.middlewareRef ++ [m]) := by
  have hne : h.middlewareRef ≠ σ.next := Nat.ne_of_lt hvalid
  have hq : (σ.alloc (σ.get h.middlewareRef)).1 = qref := congrArg Prod.fst hsnap
  have hs : (σ.alloc (σ.get h.middlewareRef)).2 = σ1 := congrArg Prod.snd hsnap
  subst hq
  subst hs
  subst hadd
  have hget : (RequestHandler.addMiddleware (σ.alloc (σ.get h.middlewareRef)).2 h m).2.get
      (σ.alloc (σ.get h.middlewareRef)).1 = σ.get h.middlewareRef := by
    rw [addMiddleware_snd,
      Store.get_set_ne _ _ _ _ (show (σ.alloc (σ.get h.middlewareRef)).1 ≠ h.middlewareRef
        from Ne.symm hne)]
    exact Store.get_alloc_fresh σ (σ.get h.middlewareRef)
  refine ⟨hget, ?_, ?_⟩
  · rw [handleRequest_spec (σ.get h.middlewareRef) _ _ req hget]
  · have hx : (RequestHandler.addMiddleware (σ.alloc (σ.get h.middlewareRef)).2 h m).2.get
        h.middlewareRef = σ.get h.middlewareRef ++ [m] := by
      rw [addMiddleware_snd, Store.get_set_same,
        Store.get_alloc_ne σ _ _ hne]
    rw [handle_fst, hx]

/-- C4 witness: the one-unit handler; a throwing unit is added between the
snapshot and the dispatch. -/
theorem c4_copy_on_dispatch_snapshot_witness :
    (RequestHandler.mk 0).middlewareRef < storeOne.next
    ∧ ((RequestHandler.addMiddleware
          (storeOne.alloc (storeOne.get (RequestHandler.mk 0).middlewareRef)).2
          (RequestHandler.mk 0) mwThrow).2.get
        (storeOne.alloc (storeOne.get (RequestHandler.mk 0).middlewareRef)).1
          = storeOne.get (RequestHandler.mk 0).middlewareRef
      ∧ (RequestHandler.handleRequest
          (RequestHandler.addMiddleware
            (storeOne.alloc (storeOne.get (RequestHandler.mk 0).middlewareRef)).2
            (RequestHandler.mk 0) mwThrow).2
          (storeOne.alloc (storeOne.get (RequestHandler.mk 0).middlewareRef)).1 5).1
          = handleRequestPure 5 (storeOne.get (RequestHandler.mk 0).middlewareRef)
      ∧ (RequestHandler.handle
          (RequestHandler.addMiddleware
            (storeOne.alloc (storeOne.get (RequestHandler.mk 0).middlewareRef)).2
            (RequestHandler.mk 0) mwThrow).2
          (RequestHandler.mk 0) 6).1
          = handleRequestPure 6
              (storeOne.get (RequestHandler.mk 0).middlewareRef ++ [mwThrow])) :=
  ⟨by decide,
   c4_copy_on_dispatch_snapshot storeOne (RequestHandler.mk 0) mwThrow 5 6
     _ _ _ (by decide) rfl rfl⟩

theorem handle_foldl_get {Req Resp : Type} (h : RequestHandler)
    (reqs : List Req) :
    ∀ (σ : Store Req Resp), h.middlewareRef < σ.next →
    (reqs.foldl (fun σ' req' => (RequestHandler.handle σ' h req').2) σ).get
        h.middlewareRef
      = σ.get h.middlewareRef := by
  induction reqs with
  | nil =>
    intro σ _
    rfl
  | cons r rs ih =>
    intro σ hv
    have hne : h.middlewareRef ≠ σ.next := Nat.ne_of_lt hv
    have hv2 : h.middlewareRef < ((RequestHandler.handle σ h r).2).next := by
      rw [handle_next]
      omega
    rw [List.foldl_cons, ih _ hv2, handle_snd,
      Store.get_set_ne _ _ _ _ hne, Store.get_alloc_ne σ _ _ hne]

/-- C9: `handle` never mutates the handler's stored middleware array — only
the per-call copy is consumed by the head-removal step — so after one call,
and after any number of calls, the registered list equals what addMiddleware
built. -/
theorem c9_registered_list_unchanged {Req Resp : Type} (σ : Store Req Resp)
    (h : RequestHandler) (req : Req) (reqs : List Req)
    (hvalid : h.middlewareRef < σ.next) :
    (RequestHandler.handle σ h req).2.get h.middlewareRef = σ.get h.middlewareRef
    ∧ (RequestHandler.handle σ h req).2.get σ.next
        = remainingQueue req (σ.get h.middlewareRef)
    ∧ (reqs.foldl (fun σ' req' => (RequestHandler.handle σ' h req').2) σ).get
        h.middlewareRef = σ.get h.middlewareRef := by
  have hne : h.middlewareRef ≠ σ.next := Nat.ne_of_lt hvalid
  refine ⟨?_, ?_, handle_foldl_get h reqs σ hvalid⟩
  · rw [handle_snd, Store.get_set_ne _ _ _ _ hne, Store.get_alloc_ne σ _ _ hne]
  · rw [handle_snd, Store.get_set_same]

/-- C9 witness: the two-unit handler across one call at request 5 and a
sequence of three further calls. -/
theorem c9_registered_list_unchanged_witness :
    (RequestHandler.mk 0).middlewareRef < storeTwo.next
    ∧ ((RequestHandler.handle storeTwo (RequestHandler.mk 0) 5).2.get
          (RequestHandler.mk 0).middlewareRef
        = storeTwo.get (RequestHandler.mk 0).middlewareRef
      ∧ (RequestHandler.handle storeTwo (RequestHandler.mk 0) 5).2.get storeTwo.next
        = remainingQueue 5 (storeTwo.get (RequestHandler.mk 0).middlewareRef)
      ∧ (([1, 2, 3] : List Nat).foldl
          (fun σ' req' => (RequestHandler.handle σ' (RequestHandler.mk 0) req').2)
          storeTwo).get (RequestHandler.mk 0).middlewareRef
        = storeTwo.get (RequestHandler.mk 0).middlewareRef) :=
  ⟨by decide,
   c9_registered_list_unchanged storeTwo (RequestHandler.mk 0) 5 [1, 2, 3]
     (by decide)⟩

/-- C3: the conversion routine folds every raw header pair of the alternating
flat sequence into the Request in sequence order by repeated with-header
operations, preserving order and duplicate multi-values; on the raw pairs
X-A:1, X-B:2, X-A:3 the resulting Request exposes X-A with ordered values
1,3 and X-B with 2. -/
theorem c3_header_folding_order_and_duplicates :
    (∀ (pairs : List (String × String)) (r : Request),
        foldRawHeaders r (rawHeaderSequence pairs)
          = pairs.foldl (fun r p => r.withHeader p.1 p.2) r)
    ∧ (∀ (pairs : List (String × String)) (r : Request) (name : String),
        (foldRawHeaders r (rawHeaderSequence pairs)).headerValues name
          = r.headerValues name
              ++ (pairs.filter (fun p => p.1 == name)).map Prod.snd)
    ∧ (foldRawHeaders (createRequest "GET" "http://host/")
        (rawHeaderSequence [("X-A", "1"), ("X-B", "2"), ("X-A", "3")])).headerValues
          "X-A" = ["1", "3"]
    ∧ (foldRawHeaders (createRequest "GET" "http://host/")
        (rawHeaderSequence [("X-A", "1"), ("X-B", "2"), ("X-A", "3")])).headerValues
          "X-B" = ["2"] := by
  refine ⟨foldRawHeaders_eq_foldl, headerValues_foldRawHeaders, ?_, ?_⟩
  · rfl
  · rfl

/-- C7: response serialization joins each header's ordered value list with a
comma into a single line, one line per header in order, and the head written
to the transport carries status code, reason phrase, and those lines; X-A
with values 1,3 becomes the line X-A: 1,3. -/
theorem c7_response_headers_joined_with_comma :
    (∀ headers : List (String × List String),
        serializeResponseHeaders headers
          = headers.map (fun p => (p.1, String.intercalate "," p.2)))
    ∧ (∀ resp : Response,
        responseHead resp
          = (resp.statusCode, resp.reasonPhrase,
             serializeResponseHeaders resp.headers))
    ∧ serializeResponseHeaders [("X-A", ["1", "3"])] = [("X-A", "1,3")]
    ∧ responseHead ⟨200, "OK", [("X-A", ["1", "3"])]⟩
        = (200, "OK", [("X-A", "1,3")]) := by
  refine ⟨serializeResponseHeaders_eq_map, fun resp => rfl, ?_, ?_⟩
  · rfl
  · rfl

/-- C8: `build` fails with the no-server-factory-provided error exactly when
no server factory has been supplied, and on that path no server value is ever
produced — the failure is at build time, before any request could be
served. -/
theorem c8_build_fails_without_server_factory {F : Type} (b : ServerBuilder F) :
    (b.build = .error "No server factory provided" ↔ b.serverFactory = none)
    ∧ (b.serverFactory = none → ∀ s, b.build ≠ .ok s) := by
  cases hf : b.serverFactory with
  | none => refine ⟨?_, ?_⟩ <;> simp [ServerBuilder.build, hf]
  | some f => refine ⟨?_, ?_⟩ <;> simp [ServerBuilder.build, hf]

/-- C8 witness: a freshly constructed builder over Nat factories. -/
theorem c8_build_fails_without_server_factory_witness :
    (ServerBuilder.new Nat).serverFactory = none
    ∧ ((ServerBuilder.new Nat).build = .error "No server factory provided"
        ↔ (ServerBuilder.new Nat).serverFactory = none)
    ∧ (ServerBuilder.new Nat).build ≠ .ok (BuiltServer.mk 5) :=
  ⟨rfl, (c8_build_fails_without_server_factory (ServerBuilder.new Nat)).1,
   (c8_build_fails_without_server_factory (ServerBuilder.new Nat)).2 rfl
     (BuiltServer.mk 5)⟩

end ApolloServer
